import Mathlib

/-!
# v.colors: the control flow of `main` (vector/v.colors/main.c)

`main` is a straight-line orchestration of library calls.  The embedding keeps
the order of the calls and every exit of the function:

* the answers of the options and flags after `G_parser` are a record `Opts`
  (a `NULL` answer is `none`);
* every library function called by `main` is a field of `Env`, named as in the
  source, giving the value the call returns (for a call with an output
  parameter `&colors`, the returned pair holds the status and the table left
  in the parameter);
* a run yields the list of calls it made, in order, with their arguments
  (`Event`), and the way the process ended (`Outcome`).

`struct Colors` is declared in `grass/raster.h`, which is not part of the
sources at hand: the table type is a parameter `C`.  `CELL` is `int` and
`DCELL` is `double` there; values of type `double` are exact rationals here
and the conversion to `CELL` is truncation toward zero (the overflow of a
32-bit `CELL`, undefined in C, is left out).  `Rast_make_colors` takes its
bounds as `CELL`, `Rast_make_fp_colors` as `DCELL`.

Every library call is taken to return.  A call of `G_fatal_error` ends the
process; the one of line 275, whose format has a conversion without an
argument, is taken to do so as well.
-/

namespace VColors

/-- CELL of grass/gis.h: the integer cell type. -/
abbrev CELL := Int

/-- DCELL of grass/gis.h: the double precision cell type, as exact rationals. -/
abbrev DCELL := ℚ

/-- The conversion `(CELL) x` of a double: the fractional part is discarded
(truncation toward zero). -/
def cellCast (x : DCELL) : CELL :=
  if 0 ≤ x then Int.floor x else Int.ceil x

/-- Answers of the options and flags once `G_parser` has returned 0
(main.c 59-127).  String answers are `char *`, `none` when not given. -/
structure Opts where
  map : Option String
  field : Option String
  attrcol : Option String
  colr : Option String
  rgbcol : Option String
  rast : Option String
  volume : Option String
  rules : Option String
  r : Bool
  w : Bool
  l : Bool
  g : Bool
  a : Bool
  n : Bool
  e : Bool

/-- The calls of `G_fatal_error` in `main`, one constructor per call site. -/
inductive Fatal where
  | no_vector_map
  | rast_volume_exclusive
  | nothing_specified
  | style_exclusive
  | g_a_exclusive
  | unable_to_remove
  | color_table_exists
  | layer_not_found
  | random_fp
  | grey_eq_not_supported
  | grey_log_not_supported
  | unknown_color_request
  | unable_to_load_rules
  | raster_not_found
  | unable_to_read_raster_colors
  | grid3_not_found
  | unable_to_read_grid3_colors
  | flag_e_not_implemented
  deriving DecidableEq, Repr

/-- How the process ends: `return EXIT_SUCCESS` / `exit(EXIT_SUCCESS)`,
`exit(EXIT_FAILURE)` after a failed `G_parser`, or `G_fatal_error`. -/
inductive Outcome where
  | exit_success
  | exit_failure
  | fatal (f : Fatal)
  deriving DecidableEq, Repr

/-- The library calls made by `main`, with the arguments that matter. -/
inductive Event (C : Type) where
  | G_list_color_rules
  | Vect_open_old2 (name : String) (mapset : String) (field : Option String)
  | Vect_remove_colors (name mapset : String)
  | G_warning_not_found (name : String)
  | G_suppress_warnings (flag : Bool)
  | Vect_read_colors (name mapset : String)
  | Vect_get_field_number (field : Option String)
  | scan_cats (layer : Int)
  | scan_attr (layer : Int) (column : String)
  | Rast_make_random_colors (lo hi : CELL)
  | G_find_color_rule (style : String)
  | Rast_make_fp_colors (style : String) (lo hi : DCELL)
  | Rast_make_colors (style : String) (lo hi : CELL)
  | Rast_load_fp_colors (path : String) (lo hi : DCELL)
  | G_find_raster2 (cmap : String)
  | Rast_read_colors (cmap cmapset : String)
  | G_find_grid3 (cmap : String)
  | Rast3d_read_colors (cmap cmapset : String)
  | Rast_invert_colors (colors : C)
  | Rast_log_colors (colors : C) (samples : Int)
  | Rast_abs_log_colors (colors : C) (samples : Int)
  | Vect_write_colors (name mapset : String) (colors : C)
  | G_message_set (name mapset : String) (what : Option String)
  deriving DecidableEq

/-- Values returned by the library functions `main` calls.  `scan_cats` and
`scan_attr` are declared in local_proto.h; the others come from the GRASS
libraries.  None of them is defined in main.c. -/
structure Env (C : Type) where
  Vect_get_name : String → String
  Vect_get_mapset : String → String
  Vect_remove_colors : String → String → Int
  Vect_read_colors : String → String → Int × C
  Vect_get_field_number : Option String → Int
  scan_cats : Int → DCELL × DCELL
  scan_attr : Int → String → Int × DCELL × DCELL
  Rast_make_random_colors : CELL → CELL → C
  G_find_color_rule : String → Int
  Rast_make_fp_colors : String → DCELL → DCELL → C
  Rast_make_colors : String → CELL → CELL → C
  Rast_load_fp_colors : String → DCELL → DCELL → Int × C
  G_find_raster2 : String → Option String
  Rast_read_colors : String → String → Int × C
  G_find_grid3 : String → Option String
  Rast3d_read_colors : String → String → Int × C
  Rast_invert_colors : C → C
  Rast_log_colors : C → Int → C
  Rast_abs_log_colors : C → Int → C

/-- Local variables of `main` that are set by the checks on the options
(lines 139-174). -/
structure Checked where
  name : String
  cmap : Option String
  rules : Option String
  is_from_stdin : Bool

/-- Local variables of `main` that are live after the domain scan (line 210);
`have_colors` is not read after line 194. -/
structure Ctx (C : Type) where
  name : String
  mapset : String
  cmap : Option String
  rules : Option String
  is_from_stdin : Bool
  colors : C
  layer : Int
  is_fp : Int
  fmin : DCELL
  fmax : DCELL

/-- Either the process has ended, or control goes on with a value. -/
inductive Step (α : Type) where
  | halt (out : Outcome)
  | cont (v : α)

/-- A complete run: the calls made, in order, and how the process ended. -/
structure Run (C : Type) where
  trace : List (Event C)
  outcome : Outcome

/-- main.c 152-156: `cmap`, the map the table is copied from (the volume
wins over the raster map, NULL when neither is given). -/
def donorName (o : Opts) : Option String :=
  let cmap : Option String := none
  let cmap := if o.rast.isSome then o.rast else cmap
  if o.volume.isSome then o.volume else cmap

/-- main.c 132-174: the list flag and the checks on the options; no map is
touched yet. -/
def checkOptions (C : Type) (o : Opts) : List (Event C) × Step Checked :=
  if o.l then ([Event.G_list_color_rules], Step.halt Outcome.exit_success) else
  match o.map with
  | none => ([], Step.halt (Outcome.fatal Fatal.no_vector_map))
  | some name =>
  if o.rast.isSome && o.volume.isSome then
    ([], Step.halt (Outcome.fatal Fatal.rast_volume_exclusive)) else
  let cmap : Option String := donorName o
  if cmap.isNone && o.colr.isNone && o.rules.isNone && !o.r then
    ([], Step.halt (Outcome.fatal Fatal.nothing_specified)) else
  if o.colr.isSome.toNat + cmap.isSome.toNat + o.rules.isSome.toNat > 1 then
    ([], Step.halt (Outcome.fatal Fatal.style_exclusive)) else
  if o.g && o.a then
    ([], Step.halt (Outcome.fatal Fatal.g_a_exclusive)) else
  let is_from_stdin : Bool := decide (o.rules = some "-")
  ([], Step.cont
    { name := name, cmap := cmap,
      rules := if is_from_stdin then none else o.rules,
      is_from_stdin := is_from_stdin })

variable {C : Type}

/-- main.c 177-210: the map is opened, the table is removed when -r is given,
an existing table is probed for, the layer is resolved and the domain is
scanned. -/
def openAndScan (o : Opts) (env : Env C) (k : Checked) : List (Event C) × Step (Ctx C) :=
  let name := env.Vect_get_name k.name
  let mapset := env.Vect_get_mapset k.name
  if o.r then
    if env.Vect_remove_colors name mapset < 0 then
      ([Event.Vect_open_old2 k.name "" o.field, Event.Vect_remove_colors name mapset],
        Step.halt (Outcome.fatal Fatal.unable_to_remove))
    else if env.Vect_remove_colors name mapset = 0 then
      ([Event.Vect_open_old2 k.name "" o.field, Event.Vect_remove_colors name mapset,
        Event.G_warning_not_found name], Step.halt Outcome.exit_success)
    else
      ([Event.Vect_open_old2 k.name "" o.field, Event.Vect_remove_colors name mapset],
        Step.halt Outcome.exit_success)
  else
  let have_colors := (env.Vect_read_colors name mapset).1
  let overwrite := !o.w
  if have_colors > 0 && !overwrite then
    ([Event.Vect_open_old2 k.name "" o.field, Event.G_suppress_warnings true,
      Event.Vect_read_colors name mapset],
      Step.halt (Outcome.fatal Fatal.color_table_exists)) else
  let layer := env.Vect_get_field_number o.field
  if layer < 1 then
    ([Event.Vect_open_old2 k.name "" o.field, Event.G_suppress_warnings true,
      Event.Vect_read_colors name mapset, Event.G_suppress_warnings false,
      Event.Vect_get_field_number o.field],
      Step.halt (Outcome.fatal Fatal.layer_not_found)) else
  match o.attrcol with
  | none =>
    ([Event.Vect_open_old2 k.name "" o.field, Event.G_suppress_warnings true,
      Event.Vect_read_colors name mapset, Event.G_suppress_warnings false,
      Event.Vect_get_field_number o.field, Event.scan_cats layer],
      Step.cont
        { name := name, mapset := mapset, cmap := k.cmap, rules := k.rules,
          is_from_stdin := k.is_from_stdin,
          colors := (env.Vect_read_colors name mapset).2, layer := layer, is_fp := 0,
          fmin := (env.scan_cats layer).1, fmax := (env.scan_cats layer).2 })
  | some attrcolumn =>
    ([Event.Vect_open_old2 k.name "" o.field, Event.G_suppress_warnings true,
      Event.Vect_read_colors name mapset, Event.G_suppress_warnings false,
      Event.Vect_get_field_number o.field, Event.scan_attr layer attrcolumn],
      Step.cont
        { name := name, mapset := mapset, cmap := k.cmap, rules := k.rules,
          is_from_stdin := k.is_from_stdin,
          colors := (env.Vect_read_colors name mapset).2, layer := layer,
          is_fp := (env.scan_attr layer attrcolumn).1,
          fmin := (env.scan_attr layer attrcolumn).2.1,
          fmax := (env.scan_attr layer attrcolumn).2.2 })

/-- main.c 132-210: the checks on the options followed by the work on the map
up to the domain scan. -/
def setup (o : Opts) (env : Env C) : List (Event C) × Step (Ctx C) :=
  match checkOptions C o with
  | (t, Step.halt out) => (t, Step.halt out)
  | (t, Step.cont k) => (t ++ (openAndScan o env k).1, (openAndScan o env k).2)

/-- main.c 212-269: the table is built from standard input (the call is
commented out in the source, nothing is done), a named style, a rules file,
or the table of another map. -/
def build (o : Opts) (env : Env C) (x : Ctx C) : List (Event C) × Step C :=
  if x.is_from_stdin then ([], Step.cont x.colors) else
  match o.colr with
  | some style =>
    if style = "random" then
      if x.is_fp ≠ 0 then ([], Step.halt (Outcome.fatal Fatal.random_fp))
      else
        ([Event.Rast_make_random_colors (cellCast x.fmin) (cellCast x.fmax)],
          Step.cont (env.Rast_make_random_colors (cellCast x.fmin) (cellCast x.fmax)))
    else if style = "grey.eq" then
      ([], Step.halt (Outcome.fatal Fatal.grey_eq_not_supported))
    else if style = "grey.log" then
      ([], Step.halt (Outcome.fatal Fatal.grey_log_not_supported))
    else if env.G_find_color_rule style ≠ 0 then
      if x.is_fp ≠ 0 then
        ([Event.G_find_color_rule style,
          Event.Rast_make_fp_colors style (cellCast x.fmin : DCELL) (cellCast x.fmax : DCELL)],
          Step.cont (env.Rast_make_fp_colors style (cellCast x.fmin : DCELL) (cellCast x.fmax : DCELL)))
      else
        ([Event.G_find_color_rule style,
          Event.Rast_make_colors style (cellCast x.fmin) (cellCast x.fmax)],
          Step.cont (env.Rast_make_colors style (cellCast x.fmin) (cellCast x.fmax)))
    else
      ([Event.G_find_color_rule style], Step.halt (Outcome.fatal Fatal.unknown_color_request))
  | none =>
    match x.rules with
    | some rules =>
      if (env.Rast_load_fp_colors rules x.fmin x.fmax).1 = 0 then
        ([Event.Rast_load_fp_colors rules x.fmin x.fmax],
          Step.halt (Outcome.fatal Fatal.unable_to_load_rules))
      else
        ([Event.Rast_load_fp_colors rules x.fmin x.fmax],
          Step.cont (env.Rast_load_fp_colors rules x.fmin x.fmax).2)
    | none =>
      -- `cmap` is dereferenced here; the checks of `setup` make it non-NULL
      let cmap := x.cmap.getD ""
      if o.rast.isSome then
        match env.G_find_raster2 cmap with
        | none => ([Event.G_find_raster2 cmap], Step.halt (Outcome.fatal Fatal.raster_not_found))
        | some cmapset =>
          if (env.Rast_read_colors cmap cmapset).1 < 0 then
            ([Event.G_find_raster2 cmap, Event.Rast_read_colors cmap cmapset],
              Step.halt (Outcome.fatal Fatal.unable_to_read_raster_colors))
          else
            ([Event.G_find_raster2 cmap, Event.Rast_read_colors cmap cmapset],
              Step.cont (env.Rast_read_colors cmap cmapset).2)
      else
        match env.G_find_grid3 cmap with
        | none => ([Event.G_find_grid3 cmap], Step.halt (Outcome.fatal Fatal.grid3_not_found))
        | some cmapset =>
          if (env.Rast3d_read_colors cmap cmapset).1 < 0 then
            ([Event.G_find_grid3 cmap, Event.Rast3d_read_colors cmap cmapset],
              Step.halt (Outcome.fatal Fatal.unable_to_read_grid3_colors))
          else
            ([Event.G_find_grid3 cmap, Event.Rast3d_read_colors cmap cmapset],
              Step.cont (env.Rast3d_read_colors cmap cmapset).2)

/-- main.c 271-292: invert, the histogram equalisation flag (a fatal error),
logarithmic scaling, logarithmic-absolute scaling, in this order. -/
def transform (o : Opts) (env : Env C) (colors : C) : List (Event C) × Step C :=
  let t1 : List (Event C) := if o.n then [Event.Rast_invert_colors colors] else []
  let c1 : C := if o.n then env.Rast_invert_colors colors else colors
  if o.e then (t1, Step.halt (Outcome.fatal Fatal.flag_e_not_implemented)) else
  let t2 : List (Event C) := if o.g then [Event.Rast_log_colors c1 100] else []
  let c2 : C := if o.g then env.Rast_log_colors c1 100 else c1
  let t3 : List (Event C) := if o.a then [Event.Rast_abs_log_colors c2 100] else []
  let c3 : C := if o.a then env.Rast_abs_log_colors c2 100 else c2
  (t1 ++ t2 ++ t3, Step.cont c3)

/-- main.c 294-301: the table is written, the closing message is printed and
the process exits with success. -/
def finish (o : Opts) (x : Ctx C) (colors : C) : List (Event C) :=
  [Event.Vect_write_colors x.name x.mapset colors,
   Event.G_message_set x.name x.mapset
     (if x.is_from_stdin then some "rules" else
      if o.colr.isSome then o.colr else
      if x.rules.isSome then x.rules else x.cmap)]

/-- main.c 132-301: `main` after a successful `G_parser`. -/
def mainBody (o : Opts) (env : Env C) : Run C :=
  match setup o env with
  | (t0, Step.halt out) => { trace := t0, outcome := out }
  | (t0, Step.cont x) =>
    match build o env x with
    | (t1, Step.halt out) => { trace := t0 ++ t1, outcome := out }
    | (t1, Step.cont colors) =>
      match transform o env colors with
      | (t2, Step.halt out) => { trace := t0 ++ t1 ++ t2, outcome := out }
      | (t2, Step.cont colors2) =>
        { trace := t0 ++ t1 ++ t2 ++ finish o x colors2, outcome := Outcome.exit_success }

/-- main.c 129-301: `parsed` is `none` when `G_parser` returns non-zero, in
which case the process exits with failure at once. -/
def main (parsed : Option Opts) (env : Env C) : Run C :=
  match parsed with
  | none => { trace := [], outcome := Outcome.exit_failure }
  | some o => mainBody o env

/-- The tables handed to `Vect_write_colors` in a sequence of calls. -/
def writes : List (Event C) → List C
  | [] => []
  | Event.Vect_write_colors _ _ c :: t => c :: writes t
  | _ :: t => writes t

/-- The maps whose table `Vect_read_colors` was asked for in a sequence of
calls. -/
def reads : List (Event C) → List (String × String)
  | [] => []
  | Event.Vect_read_colors n m :: t => (n, m) :: reads t
  | _ :: t => reads t

/-! ## Facts carried by a run that got through a stage -/

/-- What is known of the options once the checks of lines 132-174 have let
the run through. -/
structure CheckedFacts (o : Opts) (k : Checked) : Prop where
  not_list : o.l = false
  map_given : o.map = some k.name
  not_both_donors : ¬(o.rast.isSome = true ∧ o.volume.isSome = true)
  cmap_eq : k.cmap = donorName o
  something : ¬(k.cmap = none ∧ o.colr = none ∧ o.rules = none ∧ o.r = false)
  at_most_one : o.colr.isSome.toNat + k.cmap.isSome.toNat + o.rules.isSome.toNat ≤ 1
  not_g_and_a : ¬(o.g = true ∧ o.a = true)
  stdin_eq : k.is_from_stdin = decide (o.rules = some "-")
  rules_eq : k.rules = if o.rules = some "-" then none else o.rules

/-- What is known once lines 177-210 have let the run through: the table was
not removed, an existing table did not block, the layer exists and the domain
is the one the scan returned. -/
structure ScanFacts (o : Opts) (env : Env C) (k : Checked) (t : List (Event C)) (x : Ctx C) :
    Prop where
  not_remove : o.r = false
  name_eq : x.name = env.Vect_get_name k.name
  mapset_eq : x.mapset = env.Vect_get_mapset k.name
  cmap_eq : x.cmap = k.cmap
  rules_eq : x.rules = k.rules
  stdin_eq : x.is_from_stdin = k.is_from_stdin
  colors_eq : x.colors = (env.Vect_read_colors x.name x.mapset).2
  guard : o.w = true → (env.Vect_read_colors x.name x.mapset).1 ≤ 0
  layer_eq : x.layer = env.Vect_get_field_number o.field
  layer_pos : 1 ≤ x.layer
  cats : o.attrcol = none →
    x.is_fp = 0 ∧ x.fmin = (env.scan_cats x.layer).1 ∧ x.fmax = (env.scan_cats x.layer).2
  attr : ∀ col, o.attrcol = some col →
    x.is_fp = (env.scan_attr x.layer col).1 ∧ x.fmin = (env.scan_attr x.layer col).2.1 ∧
      x.fmax = (env.scan_attr x.layer col).2.2
  trace_eq : t =
    [Event.Vect_open_old2 k.name "" o.field, Event.G_suppress_warnings true,
      Event.Vect_read_colors x.name x.mapset, Event.G_suppress_warnings false,
      Event.Vect_get_field_number o.field,
      match o.attrcol with
      | none => Event.scan_cats x.layer
      | some col => Event.scan_attr x.layer col]

/-! ## Sample library results -/

/-- A symbolic colour table: it records which call produced it. -/
inductive Tbl where
  | previous
  | random (lo hi : CELL)
  | fp_ramp (style : String) (lo hi : DCELL)
  | ramp (style : String) (lo hi : CELL)
  | loaded (path : String) (lo hi : DCELL)
  | raster (cmap cmapset : String)
  | grid3 (cmap cmapset : String)
  | inverted (t : Tbl)
  | log (t : Tbl) (samples : Int)
  | abs_log (t : Tbl) (samples : Int)
  deriving DecidableEq

/-- A sample set of library results over symbolic tables: the map has layer 1,
`Vect_read_colors` returns `have_colors`, the scan returns the given domain,
"grey" is the one known colour rule, every donor map is found and read. -/
def demoEnv (have_colors is_fp : Int) (fmin fmax : DCELL) : Env Tbl where
  Vect_get_name := fun n => n
  Vect_get_mapset := fun _ => "user1"
  Vect_remove_colors := fun _ _ => 1
  Vect_read_colors := fun _ _ => (have_colors, Tbl.previous)
  Vect_get_field_number := fun _ => 1
  scan_cats := fun _ => (fmin, fmax)
  scan_attr := fun _ _ => (is_fp, fmin, fmax)
  Rast_make_random_colors := Tbl.random
  G_find_color_rule := fun s => if s = "grey" then 1 else 0
  Rast_make_fp_colors := Tbl.fp_ramp
  Rast_make_colors := Tbl.ramp
  Rast_load_fp_colors := fun p lo hi => (1, Tbl.loaded p lo hi)
  G_find_raster2 := fun _ => some "PERMANENT"
  Rast_read_colors := fun m s => (1, Tbl.raster m s)
  G_find_grid3 := fun _ => some "PERMANENT"
  Rast3d_read_colors := fun m s => (1, Tbl.grid3 m s)
  Rast_invert_colors := Tbl.inverted
  Rast_log_colors := Tbl.log
  Rast_abs_log_colors := Tbl.abs_log

/-- Options with only the map name and the layer given. -/
def mapOnly : Opts where
  map := some "roads"
  field := some "1"
  attrcol := none
  colr := none
  rgbcol := none
  rast := none
  volume := none
  rules := none
  r := false
  w := false
  l := false
  g := false
  a := false
  n := false
  e := false

/-! ## Shared lemmas -/

theorem writes_append (s t : List (Event C)) : writes (s ++ t) = writes s ++ writes t := by
  induction s with
  | nil => rfl
  | cons e s ih => cases e <;> simp [writes, ih]

theorem checkOptions_trace (o : Opts) :
    (checkOptions C o).1 = [] ∨ (checkOptions C o) = ([Event.G_list_color_rules], Step.halt Outcome.exit_success) := by
  unfold checkOptions
  split
  · right; rfl
  · left
    split
    · rfl
    · dsimp only
      split_ifs <;> rfl

theorem openAndScan_writes (o : Opts) (env : Env C) (k : Checked) :
    writes (openAndScan o env k).1 = [] := by
  unfold openAndScan
  dsimp only
  split_ifs <;> (try split) <;> rfl

theorem setup_writes (o : Opts) (env : Env C) : writes (setup o env).1 = [] := by
  unfold setup
  rcases checkOptions_trace (C := C) o with h | h
  · split <;> rename_i heq <;> rw [heq] at h <;> simp at h <;> subst h
    · rfl
    · simpa using openAndScan_writes o env _
  · rw [h]; rfl

theorem build_writes (o : Opts) (env : Env C) (x : Ctx C) : writes (build o env x).1 = [] := by
  unfold build
  dsimp only
  split_ifs <;> (try split) <;> (try split) <;> (try split_ifs) <;> (try split) <;> (try split_ifs) <;> rfl

theorem transform_writes (o : Opts) (env : Env C) (c : C) :
    writes (transform o env c).1 = [] := by
  unfold transform
  dsimp only
  split_ifs <;> rfl

theorem mainBody_setup_halt {o : Opts} {env : Env C} {t0 : List (Event C)} {out : Outcome}
    (hs : setup o env = (t0, Step.halt out)) :
    mainBody o env = { trace := t0, outcome := out } := by
  simp [mainBody, hs]

theorem mainBody_build_halt {o : Opts} {env : Env C} {t0 t1 : List (Event C)} {x : Ctx C}
    {out : Outcome} (hs : setup o env = (t0, Step.cont x))
    (hb : build o env x = (t1, Step.halt out)) :
    mainBody o env = { trace := t0 ++ t1, outcome := out } := by
  simp [mainBody, hs, hb]

theorem mainBody_transform_halt {o : Opts} {env : Env C} {t0 t1 t2 : List (Event C)}
    {x : Ctx C} {c : C} {out : Outcome} (hs : setup o env = (t0, Step.cont x))
    (hb : build o env x = (t1, Step.cont c))
    (ht : transform o env c = (t2, Step.halt out)) :
    mainBody o env = { trace := t0 ++ t1 ++ t2, outcome := out } := by
  simp [mainBody, hs, hb, ht]

theorem mainBody_complete {o : Opts} {env : Env C} {t0 t1 t2 : List (Event C)}
    {x : Ctx C} {c c2 : C} (hs : setup o env = (t0, Step.cont x))
    (hb : build o env x = (t1, Step.cont c))
    (ht : transform o env c = (t2, Step.cont c2)) :
    mainBody o env =
      { trace := t0 ++ t1 ++ t2 ++ finish o x c2, outcome := Outcome.exit_success } := by
  simp [mainBody, hs, hb, ht]

/-- A run either writes nothing, or it went through every stage and ended
with the write and the closing message. -/
theorem mainBody_shape (o : Opts) (env : Env C) :
    writes (mainBody o env).trace = [] ∨
    ∃ t0 x t1 c t2 c2, setup o env = (t0, Step.cont x) ∧ build o env x = (t1, Step.cont c) ∧
      transform o env c = (t2, Step.cont c2) ∧
      mainBody o env =
        { trace := t0 ++ t1 ++ t2 ++ finish o x c2, outcome := Outcome.exit_success } := by
  have h0 := setup_writes o env
  rcases hs : setup o env with ⟨t0, _ | x⟩
  · left; rw [mainBody_setup_halt hs]; simpa [hs] using h0
  · rw [hs] at h0
    have h1 := build_writes o env x
    rcases hb : build o env x with ⟨t1, _ | c⟩
    · left; rw [mainBody_build_halt hs hb]; rw [hb] at h1
      simp only [writes_append]; simp_all
    · rw [hb] at h1
      have h2 := transform_writes o env c
      rcases ht : transform o env c with ⟨t2, _ | c2⟩
      · left; rw [mainBody_transform_halt hs hb ht]; rw [ht] at h2
        simp only [writes_append]; simp_all
      · right
        exact ⟨t0, x, t1, c, t2, c2, rfl, hb, ht, mainBody_complete hs hb ht⟩

theorem checkOptions_cont {o : Opts} {t : List (Event C)} {k : Checked}
    (h : checkOptions C o = (t, Step.cont k)) : t = [] ∧ CheckedFacts o k := by
  unfold checkOptions at h
  by_cases hl : o.l = true
  · simp [hl] at h
  rw [if_neg hl] at h
  cases hmap : o.map with
  | none => simp [hmap] at h
  | some name =>
    simp only [hmap] at h
    by_cases h1 : (o.rast.isSome && o.volume.isSome) = true
    · rw [if_pos h1] at h; simp at h
    rw [if_neg h1] at h
    by_cases h2 : ((donorName o).isNone && o.colr.isNone && o.rules.isNone && !o.r) = true
    · rw [if_pos h2] at h; simp at h
    rw [if_neg h2] at h
    by_cases h3 : o.colr.isSome.toNat + (donorName o).isSome.toNat + o.rules.isSome.toNat > 1
    · rw [if_pos h3] at h; simp at h
    rw [if_neg h3] at h
    by_cases h4 : (o.g && o.a) = true
    · rw [if_pos h4] at h; simp at h
    rw [if_neg h4] at h
    simp only [Prod.mk.injEq, Step.cont.injEq] at h
    obtain ⟨ht, hk⟩ := h
    subst hk
    refine ⟨ht.symm, ⟨by simpa using hl, hmap, by simpa using h1, rfl, ?_, Nat.le_of_not_lt h3,
      by simpa using h4, rfl, by simp⟩⟩
    rintro ⟨ha, hb, hc, hd⟩
    apply h2
    dsimp only at ha
    simp [ha, hb, hc, hd]

theorem openAndScan_cont {o : Opts} {env : Env C} {k : Checked} {t : List (Event C)}
    {x : Ctx C} (h : openAndScan o env k = (t, Step.cont x)) : ScanFacts o env k t x := by
  unfold openAndScan at h
  dsimp only at h
  split_ifs at h with h1 h2 h3 h4 h5
  any_goals cases h
  split at h <;> rename_i hattr
  all_goals
    simp only [Prod.mk.injEq, Step.cont.injEq] at h
    obtain ⟨ht, hx⟩ := h
    subst hx
    refine ⟨by simpa using h1, rfl, rfl, rfl, rfl, rfl, rfl, ?_, rfl, ?_, ?_, ?_, ?_⟩
  all_goals first
    | (intro hw; simp [hw] at h4; exact h4)
    | (simp only [hattr]; exact ht.symm)
    | (dsimp only; omega)
    | simp [hattr]

theorem setup_cont {o : Opts} {env : Env C} {t : List (Event C)} {x : Ctx C}
    (h : setup o env = (t, Step.cont x)) :
    ∃ k, checkOptions C o = ([], Step.cont k) ∧ openAndScan o env k = (t, Step.cont x) ∧
      CheckedFacts o k ∧ ScanFacts o env k t x := by
  unfold setup at h
  split at h
  · simp at h
  · rename_i t0 k hk
    obtain ⟨ht0, hf⟩ := checkOptions_cont hk
    subst ht0
    simp only [List.nil_append, Prod.mk.injEq] at h
    have hos : openAndScan o env k = (t, Step.cont x) := Prod.ext h.1 h.2
    exact ⟨k, hk, hos, hf, openAndScan_cont hos⟩

theorem checkOptions_halt_fatal {o : Opts} {t : List (Event C)} {out : Outcome}
    (h : checkOptions C o = (t, Step.halt out)) (hl : o.l = false) :
    t = [] ∧ ∃ f, out = Outcome.fatal f ∧ (o.map ≠ none → f ≠ Fatal.no_vector_map) := by
  unfold checkOptions at h
  rw [if_neg (by simp [hl])] at h
  split at h
  · rename_i hmap
    simp only [Prod.mk.injEq, Step.halt.injEq] at h
    exact ⟨h.1.symm, _, h.2.symm, fun hne => absurd hmap hne⟩
  · dsimp only at h
    split_ifs at h
    try any_goals (simp at h; done)
    all_goals
      simp only [Prod.mk.injEq, Step.halt.injEq] at h
      exact ⟨h.1.symm, _, h.2.symm, fun _ => by decide⟩

theorem openAndScan_halt_fatal {o : Opts} {env : Env C} {k : Checked} {t : List (Event C)}
    {out : Outcome} (h : openAndScan o env k = (t, Step.halt out)) (hr : o.r = false) :
    ∃ f, out = Outcome.fatal f := by
  unfold openAndScan at h
  dsimp only at h
  rw [if_neg (by simp [hr])] at h
  split_ifs at h
  any_goals
    simp only [Prod.mk.injEq, Step.halt.injEq] at h
    exact ⟨_, h.2.symm⟩
  split at h <;> simp at h

theorem setup_halt_fatal {o : Opts} {env : Env C} {t : List (Event C)} {out : Outcome}
    (h : setup o env = (t, Step.halt out)) (hl : o.l = false) (hr : o.r = false) :
    ∃ f, out = Outcome.fatal f := by
  unfold setup at h
  split at h
  · rename_i t0 out0 hk
    simp only [Prod.mk.injEq, Step.halt.injEq] at h
    obtain ⟨_, f, hf, _⟩ := checkOptions_halt_fatal hk hl
    exact ⟨f, h.2 ▸ hf⟩
  · rename_i t0 k hk
    simp only [Prod.mk.injEq] at h
    exact openAndScan_halt_fatal (Prod.ext rfl h.2) hr

theorem build_halt_fatal {o : Opts} {env : Env C} {x : Ctx C} {t : List (Event C)}
    {out : Outcome} (h : build o env x = (t, Step.halt out)) : ∃ f, out = Outcome.fatal f := by
  unfold build at h
  dsimp only at h
  split at h
  · simp at h
  · split at h
    · split_ifs at h
      try any_goals (simp at h; done)
      all_goals
        simp only [Prod.mk.injEq, Step.halt.injEq] at h
        exact ⟨_, h.2.symm⟩
    · split at h
      · split_ifs at h
        try any_goals (simp at h; done)
        all_goals
          simp only [Prod.mk.injEq, Step.halt.injEq] at h
          exact ⟨_, h.2.symm⟩
      · split_ifs at h
        all_goals
          split at h
          · simp only [Prod.mk.injEq, Step.halt.injEq] at h
            exact ⟨_, h.2.symm⟩
          · split_ifs at h
            try any_goals (simp at h; done)
            all_goals
              simp only [Prod.mk.injEq, Step.halt.injEq] at h
              exact ⟨_, h.2.symm⟩

/-- With -e the transform stage ends in the fatal error of line 275, after the
inversion (when asked for) and before any logarithmic scaling. -/
theorem transform_of_e {o : Opts} (env : Env C) (c : C) (he : o.e = true) :
    transform o env c =
      (if o.n then [Event.Rast_invert_colors c] else [],
        Step.halt (Outcome.fatal Fatal.flag_e_not_implemented)) := by
  unfold transform
  simp [he]

/-- Without -e the transform stage goes through: invert, then log, then
abs-log, each when asked for. -/
theorem transform_of_not_e {o : Opts} (env : Env C) (c : C) (he : o.e = false) :
    transform o env c =
      ((if o.n then [Event.Rast_invert_colors c] else []) ++
        (if o.g then
          [Event.Rast_log_colors (if o.n then env.Rast_invert_colors c else c) 100] else []) ++
        (if o.a then
          [Event.Rast_abs_log_colors
            (if o.g then env.Rast_log_colors (if o.n then env.Rast_invert_colors c else c) 100
              else (if o.n then env.Rast_invert_colors c else c)) 100] else []),
        Step.cont
          (if o.a then
            env.Rast_abs_log_colors
              (if o.g then env.Rast_log_colors (if o.n then env.Rast_invert_colors c else c) 100
                else (if o.n then env.Rast_invert_colors c else c)) 100
            else
              (if o.g then env.Rast_log_colors (if o.n then env.Rast_invert_colors c else c) 100
                else (if o.n then env.Rast_invert_colors c else c)))) := by
  unfold transform
  simp [he]

theorem donorName_isSome (o : Opts) :
    (donorName o).isSome = (o.rast.isSome || o.volume.isSome) := by
  unfold donorName
  cases o.rast <;> cases o.volume <;> rfl

theorem donorName_eq_none (o : Opts) :
    donorName o = none ↔ o.rast = none ∧ o.volume = none := by
  unfold donorName
  cases o.rast <;> cases o.volume <;> simp

theorem mem_writes {t : List (Event C)} {n m : String} {c : C}
    (h : Event.Vect_write_colors n m c ∈ t) : c ∈ writes t := by
  induction t with
  | nil => simp at h
  | cons e t ih =>
    rcases List.mem_cons.1 h with h | h
    · subst h; simp [writes]
    · have hi := ih h
      cases e <;> simp [writes, hi]

theorem mem_reads {t : List (Event C)} {n m : String}
    (h : Event.Vect_read_colors n m ∈ t) : (n, m) ∈ reads t := by
  induction t with
  | nil => simp at h
  | cons e t ih =>
    rcases List.mem_cons.1 h with h | h
    · subst h; simp [reads]
    · have hi := ih h
      cases e <;> simp [reads, hi]

theorem reads_append (s t : List (Event C)) : reads (s ++ t) = reads s ++ reads t := by
  induction s with
  | nil => rfl
  | cons e s ih => cases e <;> simp [reads, ih]

theorem build_reads (o : Opts) (env : Env C) (x : Ctx C) : reads (build o env x).1 = [] := by
  unfold build
  dsimp only
  split_ifs <;> (try split) <;> (try split) <;> (try split_ifs) <;> (try split) <;> (try split_ifs) <;> rfl

theorem transform_reads (o : Opts) (env : Env C) (c : C) :
    reads (transform o env c).1 = [] := by
  unfold transform
  dsimp only
  split_ifs <;> rfl

/-- The fatal error of the overwrite guard does not come from the checks on
the options. -/
theorem checkOptions_halt_kind {o : Opts} {t : List (Event C)} {out : Outcome}
    (h : checkOptions C o = (t, Step.halt out)) :
    out = Outcome.exit_success ∨ out = Outcome.fatal Fatal.no_vector_map ∨
    out = Outcome.fatal Fatal.rast_volume_exclusive ∨
    out = Outcome.fatal Fatal.nothing_specified ∨
    out = Outcome.fatal Fatal.style_exclusive ∨ out = Outcome.fatal Fatal.g_a_exclusive := by
  unfold checkOptions at h
  split at h
  · simp only [Prod.mk.injEq, Step.halt.injEq] at h
    simp [← h.2]
  · split at h
    · simp only [Prod.mk.injEq, Step.halt.injEq] at h
      simp [← h.2]
    · dsimp only at h
      split_ifs at h
      try any_goals (simp at h; done)
      all_goals
        simp only [Prod.mk.injEq, Step.halt.injEq] at h
        simp [← h.2]

theorem build_halt_ne_exists {o : Opts} {env : Env C} {x : Ctx C} {t : List (Event C)}
    {out : Outcome} (h : build o env x = (t, Step.halt out)) :
    out ≠ Outcome.fatal Fatal.color_table_exists := by
  unfold build at h
  dsimp only at h
  split at h
  · simp at h
  · split at h
    · split_ifs at h
      try any_goals (simp at h; done)
      all_goals
        simp only [Prod.mk.injEq, Step.halt.injEq] at h
        simp [← h.2]
    · split at h
      · split_ifs at h
        try any_goals (simp at h; done)
        all_goals
          simp only [Prod.mk.injEq, Step.halt.injEq] at h
          simp [← h.2]
      · split_ifs at h
        all_goals
          split at h
          · simp only [Prod.mk.injEq, Step.halt.injEq] at h
            simp [← h.2]
          · split_ifs at h
            try any_goals (simp at h; done)
            all_goals
              simp only [Prod.mk.injEq, Step.halt.injEq] at h
              simp [← h.2]

theorem transform_halt_ne_exists {o : Opts} {env : Env C} {c : C} {t : List (Event C)}
    {out : Outcome} (h : transform o env c = (t, Step.halt out)) :
    out ≠ Outcome.fatal Fatal.color_table_exists := by
  unfold transform at h
  dsimp only at h
  split_ifs at h
  try any_goals (simp at h; done)
  all_goals
    simp only [Prod.mk.injEq, Step.halt.injEq] at h
    simp [← h.2]

theorem openAndScan_halt_ne_exists {o : Opts} {env : Env C} {k : Checked}
    {t : List (Event C)} {out : Outcome} (h : openAndScan o env k = (t, Step.halt out))
    (hw : o.w = false) : out ≠ Outcome.fatal Fatal.color_table_exists := by
  unfold openAndScan at h
  simp only [hw] at h
  split_ifs at h
  any_goals
    simp only [Prod.mk.injEq, Step.halt.injEq] at h
    simp [← h.2]
  all_goals simp_all
  split at h <;> simp at h

/-- With -w and an existing table the work on the map stops at the guard of
line 194. -/
theorem openAndScan_guard {o : Opts} (env : Env C) (k : Checked) (hr : o.r = false)
    (hw : o.w = true)
    (hc : 0 < (env.Vect_read_colors (env.Vect_get_name k.name) (env.Vect_get_mapset k.name)).1) :
    openAndScan o env k =
      ([Event.Vect_open_old2 k.name "" o.field, Event.G_suppress_warnings true,
        Event.Vect_read_colors (env.Vect_get_name k.name) (env.Vect_get_mapset k.name)],
        Step.halt (Outcome.fatal Fatal.color_table_exists)) := by
  unfold openAndScan
  simp [hr, hw, hc]

/-- The calls of `Vect_read_colors` made by the work on the map: none with
-r, one otherwise, for the opened map. -/
theorem openAndScan_reads (o : Opts) (env : Env C) (k : Checked) :
    reads (openAndScan o env k).1 =
      if o.r then [] else [(env.Vect_get_name k.name, env.Vect_get_mapset k.name)] := by
  unfold openAndScan
  dsimp only
  split_ifs <;> (try split) <;> rfl

theorem setup_of_checked {o : Opts} {env : Env C} {k : Checked}
    (hk : checkOptions C o = ([], Step.cont k)) : setup o env = openAndScan o env k := by
  simp [setup, hk]

/-- A call of `Vect_read_colors` in a run is the probe of line 192: the
options went through the checks, -r is not set, and the map is the opened
one. -/
theorem mainBody_read_inv {o : Opts} {env : Env C} {nm ms : String}
    (h : Event.Vect_read_colors nm ms ∈ (mainBody o env).trace) :
    ∃ k, checkOptions C o = ([], Step.cont k) ∧ o.r = false ∧
      nm = env.Vect_get_name k.name ∧ ms = env.Vect_get_mapset k.name := by
  have hm := mem_reads h
  rcases hk : checkOptions C o with ⟨t, out | k⟩
  · exfalso
    have hs : setup o env = (t, Step.halt out) := by simp [setup, hk]
    rw [mainBody_setup_halt hs] at hm
    rcases checkOptions_trace (C := C) o with h1 | h1
    · rw [hk] at h1; dsimp only at h1; subst h1; simp [reads] at hm
    · rw [hk] at h1; simp only [Prod.mk.injEq] at h1; rw [h1.1] at hm; simp [reads] at hm
  · obtain ⟨ht, _⟩ := checkOptions_cont hk
    subst ht
    refine ⟨k, rfl, ?_⟩
    have hs : setup o env = openAndScan o env k := setup_of_checked hk
    have hr0 := openAndScan_reads o env k
    rw [← hs] at hr0
    have key : reads (mainBody o env).trace = reads (setup o env).1 := by
      rcases hs0 : setup o env with ⟨t0, out | x⟩
      · rw [mainBody_setup_halt hs0]
      · have h1 := build_reads o env x
        rcases hb : build o env x with ⟨t1, out | c⟩
        · rw [mainBody_build_halt hs0 hb]; rw [hb] at h1
          simp only [reads_append]; simp_all
        · rw [hb] at h1
          have h2 := transform_reads o env c
          rcases htr : transform o env c with ⟨t2, out | c2⟩
          · rw [mainBody_transform_halt hs0 hb htr]; rw [htr] at h2
            simp only [reads_append]; simp_all
          · rw [mainBody_complete hs0 hb htr]; rw [htr] at h2
            simp only [reads_append]; simp_all [finish, reads]
    rw [key, hr0] at hm
    cases hr : o.r
    · simp [hr] at hm
      exact ⟨rfl, hm.1, hm.2⟩
    · simp [hr] at hm

theorem cellCast_intCast (a : Int) : cellCast (a : DCELL) = a := by
  unfold cellCast
  split <;> simp

/-- The table built from another map: the one `Rast_read_colors` (or
`Rast3d_read_colors`) returned, whatever the scanned domain. -/
theorem build_donor {o : Opts} {env : Env C} {k : Checked} {t0 : List (Event C)} {x : Ctx C}
    (hk : CheckedFacts o k) (hf : ScanFacts o env k t0 x)
    (hstyle : o.colr = none) (hrules : o.rules = none) :
    (∀ cmap cmapset, o.rast = some cmap → env.G_find_raster2 cmap = some cmapset →
      0 ≤ (env.Rast_read_colors cmap cmapset).1 →
      build o env x =
        ([Event.G_find_raster2 cmap, Event.Rast_read_colors cmap cmapset],
          Step.cont (env.Rast_read_colors cmap cmapset).2)) ∧
    (∀ cmap cmapset, o.volume = some cmap → env.G_find_grid3 cmap = some cmapset →
      0 ≤ (env.Rast3d_read_colors cmap cmapset).1 →
      build o env x =
        ([Event.G_find_grid3 cmap, Event.Rast3d_read_colors cmap cmapset],
          Step.cont (env.Rast3d_read_colors cmap cmapset).2)) := by
  have hstdin : x.is_from_stdin = false := by
    rw [hf.stdin_eq, hk.stdin_eq, hrules]; rfl
  have hxr : x.rules = none := by
    rw [hf.rules_eq, hk.rules_eq, hrules]; rfl
  have hcm : x.cmap = donorName o := by rw [hf.cmap_eq, hk.cmap_eq]
  constructor
  · intro cmap cmapset hrast hfind hread
    have hvol : o.volume = none := by
      cases hv : o.volume with
      | none => rfl
      | some v => exact absurd ⟨by simp [hrast], by simp [hv]⟩ hk.not_both_donors
    unfold build
    simp [hstdin, hstyle, hxr, hcm, donorName, hrast, hvol, hfind, not_lt.2 hread]
  · intro cmap cmapset hvol hfind hread
    have hrast : o.rast = none := by
      cases hv : o.rast with
      | none => rfl
      | some v => exact absurd ⟨by simp [hv], by simp [hvol]⟩ hk.not_both_donors
    unfold build
    simp [hstdin, hstyle, hxr, hcm, donorName, hrast, hvol, hfind, not_lt.2 hread]

/-! ## C1 -/

/-- C1: a run of main that does not end with success (a fatal error, or the
exit after a failed G_parser) has not called Vect_write_colors; and when
Vect_write_colors is called, the run ends with success, no write precedes it
and the only call after it is the closing G_message. -/
theorem no_table_persisted_on_failure (parsed : Option Opts) (env : Env C) :
    ((main parsed env).outcome ≠ Outcome.exit_success →
      writes (main parsed env).trace = []) ∧
    (∀ c, c ∈ writes (main parsed env).trace →
      (main parsed env).outcome = Outcome.exit_success ∧
      ∃ pre nm ms what, writes pre = [] ∧
        (main parsed env).trace =
          pre ++ [Event.Vect_write_colors nm ms c, Event.G_message_set nm ms what]) := by
  cases parsed with
  | none => simp [main, writes]
  | some o =>
    simp only [main]
    rcases mainBody_shape o env with h | ⟨t0, x, t1, c0, t2, c2, hs, hb, ht, hm⟩
    · simp [h]
    · have h0 := setup_writes o env
      have h1 := build_writes o env x
      have h2 := transform_writes o env c0
      rw [hs] at h0; rw [hb] at h1; rw [ht] at h2
      rw [hm]
      refine ⟨fun h => absurd rfl h, ?_⟩
      intro c hc
      simp only [writes_append, finish, writes] at hc
      simp only [h0, h1, h2, List.append_nil, List.nil_append, List.mem_singleton] at hc
      subst hc
      exact ⟨rfl, t0 ++ t1 ++ t2, x.name, x.mapset, _, by simp [writes_append, h0, h1, h2], rfl⟩

/-- C1, on a sample run: an unknown style ends in a fatal error and nothing
has been written. -/
theorem no_table_persisted_on_failure_witness :
    writes (main (some { mapOnly with colr := some "nosuch" }) (demoEnv 1 0 0 100)).trace = [] :=
  (no_table_persisted_on_failure (some { mapOnly with colr := some "nosuch" })
    (demoEnv 1 0 0 100)).1 (by decide)

/-! ## C5 -/

/-- C5: with -e set and neither -l nor -r, every run of main ends in a fatal
error and Vect_write_colors is never called, whatever the style, the other
flags and the results of the library calls. -/
theorem histogram_equalize_fails_fast (o : Opts) (env : Env C)
    (he : o.e = true) (hl : o.l = false) (hr : o.r = false) :
    (∃ f, (main (some o) env).outcome = Outcome.fatal f) ∧
      writes (main (some o) env).trace = [] := by
  simp only [main]
  rcases hs : setup o env with ⟨t0, out | x⟩
  · obtain ⟨f, hf⟩ := setup_halt_fatal hs hl hr
    have h0 := setup_writes o env
    rw [hs] at h0
    rw [mainBody_setup_halt hs]
    exact ⟨⟨f, hf⟩, h0⟩
  · have h0 := setup_writes o env
    rw [hs] at h0
    have h1 := build_writes o env x
    rcases hb : build o env x with ⟨t1, out | c⟩
    · obtain ⟨f, hf⟩ := build_halt_fatal hb
      rw [hb] at h1
      rw [mainBody_build_halt hs hb]
      exact ⟨⟨f, hf⟩, by simp_all [writes_append]⟩
    · rw [hb] at h1
      rw [mainBody_transform_halt hs hb (transform_of_e env c he)]
      refine ⟨⟨_, rfl⟩, ?_⟩
      simp only [writes_append]
      simp_all only [List.nil_append]
      split <;> rfl

/-- C5, on a sample run: the style "grey" with -e on a map with categories
0..100. -/
theorem histogram_equalize_fails_fast_witness :
    (∃ f, (main (some { mapOnly with colr := some "grey", e := true })
        (demoEnv 0 0 0 100)).outcome = Outcome.fatal f) ∧
      writes (main (some { mapOnly with colr := some "grey", e := true })
        (demoEnv 0 0 0 100)).trace = [] :=
  histogram_equalize_fails_fast { mapOnly with colr := some "grey", e := true }
    (demoEnv 0 0 0 100) rfl rfl rfl

/-! ## C9 -/

/-- C9: without -l and with a map name given, when (i) more than one of the
named style, a donor map and the rules is given, or (ii) both donor maps are
given, or (iii) -g and -a are both set, or (iv) none of style, donor map,
rules and -r is given, main ends in a fatal error (one of the four on the consistency of the
options) without having made any library call: the map is not opened and
nothing is removed, read, scanned, built, transformed or written. -/
theorem inconsistent_options_rejected (o : Opts) (env : Env C) (name : String)
    (hl : o.l = false) (hmap : o.map = some name)
    (hbad :
      1 < o.colr.isSome.toNat + (o.rast.isSome || o.volume.isSome).toNat +
            o.rules.isSome.toNat ∨
      (o.rast.isSome = true ∧ o.volume.isSome = true) ∨
      (o.g = true ∧ o.a = true) ∨
      (o.colr = none ∧ o.rast = none ∧ o.volume = none ∧ o.rules = none ∧ o.r = false)) :
    ∃ f, f ≠ Fatal.no_vector_map ∧
      main (some o) env = { trace := [], outcome := Outcome.fatal f } := by
  simp only [main]
  rcases hk : checkOptions C o with ⟨t, out | k⟩
  · obtain ⟨ht, f, hf, hne⟩ := checkOptions_halt_fatal hk hl
    subst ht hf
    refine ⟨f, hne (by simp [hmap]), mainBody_setup_halt ?_⟩
    simp [setup, hk]
  · exfalso
    obtain ⟨_, hf⟩ := checkOptions_cont hk
    rcases hbad with h | h | h | ⟨h1, h2, h3, h4, h5⟩
    · have := hf.at_most_one
      rw [hf.cmap_eq, donorName_isSome] at this
      omega
    · exact hf.not_both_donors h
    · exact hf.not_g_and_a h
    · exact hf.something ⟨by rw [hf.cmap_eq, donorName_eq_none]; exact ⟨h2, h3⟩, h1, h4, h5⟩

/-- C9, on a sample invocation: a named style together with a rules file. -/
theorem inconsistent_options_rejected_witness :
    ∃ f, f ≠ Fatal.no_vector_map ∧
      main (some { mapOnly with colr := some "grey", rules := some "my.rules" })
        (demoEnv 0 0 0 100) = { trace := [], outcome := Outcome.fatal f } :=
  inconsistent_options_rejected { mapOnly with colr := some "grey", rules := some "my.rules" }
    (demoEnv 0 0 0 100) "roads" rfl rfl (Or.inl (by decide))

/-! ## C10 -/

/-- C10: with -w, a call of Vect_write_colors is preceded by the call of
Vect_read_colors for the same map, and that call reported no table (a status
<= 0); with -w, when the call of Vect_read_colors reports a table (a status
> 0) the run ends with the fatal error 'Color table exists' right after it, so
before the scan, the build and the write.  Without -w the run never ends with
that error, and the status reported by Vect_read_colors has no effect on the
run at all. -/
theorem overwrite_guard (o : Opts) (env : Env C) :
    (o.w = true → ∀ nm ms c,
      Event.Vect_write_colors nm ms c ∈ (main (some o) env).trace →
        (env.Vect_read_colors nm ms).1 ≤ 0 ∧
        ∃ pre post, (main (some o) env).trace = pre ++ Event.Vect_read_colors nm ms :: post ∧
          Event.Vect_write_colors nm ms c ∈ post) ∧
    (o.w = true → ∀ nm ms,
      Event.Vect_read_colors nm ms ∈ (main (some o) env).trace →
      0 < (env.Vect_read_colors nm ms).1 →
        ∃ name, main (some o) env =
          { trace := [Event.Vect_open_old2 name "" o.field, Event.G_suppress_warnings true,
              Event.Vect_read_colors nm ms],
            outcome := Outcome.fatal Fatal.color_table_exists }) ∧
    (o.w = false →
      (main (some o) env).outcome ≠ Outcome.fatal Fatal.color_table_exists ∧
      ∀ status : String → String → Int,
        main (some o)
          { env with
            Vect_read_colors := fun n m => (status n m, (env.Vect_read_colors n m).2) } =
        main (some o) env) := by
  simp only [main]
  refine ⟨?_, ?_, ?_⟩
  · intro hw nm ms c hmem
    rcases mainBody_shape o env with h | ⟨t0, x, t1, c0, t2, c2, hs, hb, ht, hm⟩
    · have := mem_writes hmem
      rw [h] at this
      simp at this
    · obtain ⟨k, _, _, _, hf⟩ := setup_cont hs
      have h0 := setup_writes o env
      have h1 := build_writes o env x
      have h2 := transform_writes o env c0
      rw [hs] at h0; rw [hb] at h1; rw [ht] at h2
      rw [hm] at hmem ⊢
      dsimp only at hmem ⊢
      have hfin : Event.Vect_write_colors nm ms c ∈ finish o x c2 := by
        rcases List.mem_append.1 hmem with h | h
        · exfalso
          have := mem_writes h
          simp [writes_append, h0, h1, h2] at this
        · exact h
      have hnames : nm = x.name ∧ ms = x.mapset := by
        simp only [finish, List.mem_cons, Event.Vect_write_colors.injEq, List.mem_singleton,
          List.not_mem_nil, or_false] at hfin
        rcases hfin with h | h
        · exact ⟨h.1, h.2.1⟩
        · cases h
      obtain ⟨hn, hmm⟩ := hnames
      subst hn hmm
      refine ⟨hf.guard hw, [Event.Vect_open_old2 k.name "" o.field, Event.G_suppress_warnings true],
        t0.drop 3 ++ t1 ++ t2 ++ finish o x c2, ?_, List.mem_append_right _ hfin⟩
      rw [hf.trace_eq]
      simp
  · intro hw nm ms hmem hpos
    obtain ⟨k, hk, hr, hn, hmm⟩ := mainBody_read_inv hmem
    subst hn hmm
    refine ⟨k.name, mainBody_setup_halt ?_⟩
    rw [setup_of_checked hk]
    exact openAndScan_guard env k hr hw hpos
  · intro hw
    constructor
    · rcases hs : setup o env with ⟨t0, out | x⟩
      · rw [mainBody_setup_halt hs]
        dsimp only
        rcases hk : checkOptions C o with ⟨t, out0 | k⟩
        · have hs2 : setup o env = (t, Step.halt out0) := by simp [setup, hk]
          rw [hs] at hs2
          simp only [Prod.mk.injEq, Step.halt.injEq] at hs2
          rw [hs2.2]
          rcases checkOptions_halt_kind hk with h | h | h | h | h | h <;> simp [h]
        · obtain ⟨ht, _⟩ := checkOptions_cont hk
          subst ht
          rw [setup_of_checked hk] at hs
          exact openAndScan_halt_ne_exists hs hw
      · rcases hb : build o env x with ⟨t1, out | c⟩
        · rw [mainBody_build_halt hs hb]
          exact build_halt_ne_exists hb
        · rcases ht : transform o env c with ⟨t2, out | c2⟩
          · rw [mainBody_transform_halt hs hb ht]
            exact transform_halt_ne_exists ht
          · rw [mainBody_complete hs hb ht]
            simp
    · intro status
      have hos : ∀ k, openAndScan o
          { env with
            Vect_read_colors := fun n m => (status n m, (env.Vect_read_colors n m).2) } k =
          openAndScan o env k := by
        intro k
        unfold openAndScan
        simp [hw]
      unfold mainBody setup
      simp only [hos]
      rfl

/-- C10, on a sample run: -w with the style "grey" on a map that has a table. -/
theorem overwrite_guard_witness :
    ∃ name, main (some { mapOnly with colr := some "grey", w := true }) (demoEnv 1 0 0 100) =
      { trace := [Event.Vect_open_old2 name "" (some "1"), Event.G_suppress_warnings true,
          Event.Vect_read_colors "roads" "user1"],
        outcome := Outcome.fatal Fatal.color_table_exists } :=
  (overwrite_guard { mapOnly with colr := some "grey", w := true } (demoEnv 1 0 0 100)).2.1
    rfl "roads" "user1" (by simp [main, mainBody, setup, checkOptions, openAndScan, donorName,
      mapOnly, demoEnv]) (by simp [demoEnv])

/-! ## C2 -/

/-- C2: when the only style given is a donor map (a raster map or a volume),
the donor is found, its table is read with a status >= 0 and none of -n, -g,
-a, -e is set, every table handed to Vect_write_colors is the table returned
by the donor read, and a run that gets past the domain scan ends with success
having written exactly that table; the scanned domain plays no role. -/
theorem donor_table_copied (o : Opts) (env : Env C) (donor : C)
    (hstyle : o.colr = none) (hrules : o.rules = none)
    (hn : o.n = false) (hg : o.g = false) (ha : o.a = false) (he : o.e = false)
    (hdonor :
      (∃ cmap cmapset, o.rast = some cmap ∧ env.G_find_raster2 cmap = some cmapset ∧
        0 ≤ (env.Rast_read_colors cmap cmapset).1 ∧
        donor = (env.Rast_read_colors cmap cmapset).2) ∨
      (∃ cmap cmapset, o.volume = some cmap ∧ env.G_find_grid3 cmap = some cmapset ∧
        0 ≤ (env.Rast3d_read_colors cmap cmapset).1 ∧
        donor = (env.Rast3d_read_colors cmap cmapset).2)) :
    (∀ c ∈ writes (main (some o) env).trace, c = donor) ∧
    (∀ t0 x, setup o env = (t0, Step.cont x) →
      (main (some o) env).outcome = Outcome.exit_success ∧
      writes (main (some o) env).trace = [donor]) := by
  simp only [main]
  have key : ∀ t0 x, setup o env = (t0, Step.cont x) →
      (mainBody o env).outcome = Outcome.exit_success ∧
      writes (mainBody o env).trace = [donor] := by
    intro t0 x hs
    obtain ⟨k, _, _, hk, hf⟩ := setup_cont hs
    have h0 := setup_writes o env
    rw [hs] at h0
    have ht : transform o env donor = ([], Step.cont donor) := by
      rw [transform_of_not_e env donor he]; simp [hn, hg, ha]
    have hb : ∃ t1, build o env x = (t1, Step.cont donor) := by
      rcases hdonor with ⟨cmap, cmapset, h1, h2, h3, h4⟩ | ⟨cmap, cmapset, h1, h2, h3, h4⟩
      · exact ⟨_, h4 ▸ (build_donor hk hf hstyle hrules).1 cmap cmapset h1 h2 h3⟩
      · exact ⟨_, h4 ▸ (build_donor hk hf hstyle hrules).2 cmap cmapset h1 h2 h3⟩
    obtain ⟨t1, hb⟩ := hb
    have h1 := build_writes o env x
    rw [hb] at h1
    dsimp only at h1
    rw [mainBody_complete hs hb ht]
    refine ⟨rfl, ?_⟩
    dsimp only at h0
    simp [writes_append, h0, h1, finish, writes]
  refine ⟨?_, key⟩
  intro c hc
  rcases mainBody_shape o env with h | ⟨t0, x, _, _, _, _, hs, _⟩
  · rw [h] at hc; simp at hc
  · rw [(key t0 x hs).2] at hc
    simpa using hc

/-- C2, on a sample run: the table of the raster map "dem" is copied to a map
whose categories span 0..100. -/
theorem donor_table_copied_witness :
    (main (some { mapOnly with rast := some "dem" }) (demoEnv 0 0 0 100)).outcome =
        Outcome.exit_success ∧
      writes (main (some { mapOnly with rast := some "dem" }) (demoEnv 0 0 0 100)).trace =
        [Tbl.raster "dem" "PERMANENT"] :=
  (donor_table_copied { mapOnly with rast := some "dem" } (demoEnv 0 0 0 100)
    (Tbl.raster "dem" "PERMANENT") rfl rfl rfl rfl rfl rfl
    (Or.inl ⟨"dem", "PERMANENT", rfl, rfl, by decide, rfl⟩)).2 _ _ rfl

/-! ## C3 -/

/-- C3 as stated fails: on a run that reaches the transform stage with -g and
-e set, the run ends at the histogram equalisation flag and Rast_log_colors
has not been called: every call made is listed, and none is the logarithmic
rescaling. -/
theorem log_before_equalize_counterexample :
    main (some { mapOnly with colr := some "grey", g := true, e := true })
        (demoEnv 0 0 0 100) =
      { trace :=
          [Event.Vect_open_old2 "roads" "" (some "1"), Event.G_suppress_warnings true,
            Event.Vect_read_colors "roads" "user1", Event.G_suppress_warnings false,
            Event.Vect_get_field_number (some "1"), Event.scan_cats 1,
            Event.G_find_color_rule "grey", Event.Rast_make_colors "grey" 0 100],
        outcome := Outcome.fatal Fatal.flag_e_not_implemented } := by
  simp [main, mainBody, setup, checkOptions, openAndScan, donorName, build, transform,
    mapOnly, demoEnv, cellCast]

/-- C3, amended: on a run that reaches the transform stage with the built
table c, -g and -a are not both set; the inversion comes first when asked
for; then, with -e, the run ends in the fatal error of the histogram
equalisation flag, no logarithmic rescaling having been made; without -e, the
logarithmic (-g) or logarithmic-absolute (-a) rescaling of the possibly
inverted table follows, and the result is written.  With -n and -g and
without -e the table written is LogScale(Invert(c)). -/
theorem transform_order (o : Opts) (env : Env C) (t0 t1 : List (Event C)) (x : Ctx C) (c : C)
    (hs : setup o env = (t0, Step.cont x)) (hb : build o env x = (t1, Step.cont c)) :
    ¬(o.g = true ∧ o.a = true) ∧
    (o.e = true →
      main (some o) env =
        { trace := t0 ++ t1 ++ (if o.n then [Event.Rast_invert_colors c] else []),
          outcome := Outcome.fatal Fatal.flag_e_not_implemented }) ∧
    (o.e = false → o.g = true →
      main (some o) env =
        { trace := t0 ++ t1 ++ (if o.n then [Event.Rast_invert_colors c] else []) ++
            [Event.Rast_log_colors (if o.n then env.Rast_invert_colors c else c) 100] ++
            finish o x (env.Rast_log_colors (if o.n then env.Rast_invert_colors c else c) 100),
          outcome := Outcome.exit_success }) ∧
    (o.e = false → o.a = true →
      main (some o) env =
        { trace := t0 ++ t1 ++ (if o.n then [Event.Rast_invert_colors c] else []) ++
            [Event.Rast_abs_log_colors (if o.n then env.Rast_invert_colors c else c) 100] ++
            finish o x
              (env.Rast_abs_log_colors (if o.n then env.Rast_invert_colors c else c) 100),
          outcome := Outcome.exit_success }) ∧
    (o.e = false → o.g = false → o.a = false →
      main (some o) env =
        { trace := t0 ++ t1 ++ (if o.n then [Event.Rast_invert_colors c] else []) ++
            finish o x (if o.n then env.Rast_invert_colors c else c),
          outcome := Outcome.exit_success }) ∧
    (o.n = true → o.g = true → o.e = false →
      writes (main (some o) env).trace =
        [env.Rast_log_colors (env.Rast_invert_colors c) 100]) := by
  obtain ⟨k, _, _, hk, hf⟩ := setup_cont hs
  have hga := hk.not_g_and_a
  have h0 := setup_writes o env
  have h1 := build_writes o env x
  rw [hs] at h0; rw [hb] at h1
  dsimp only at h0 h1
  simp only [main]
  refine ⟨hga, ?_, ?_, ?_, ?_, ?_⟩
  · intro he
    exact mainBody_transform_halt hs hb (transform_of_e env c he)
  · intro he hg
    have ha : o.a = false := by
      cases h : o.a
      · rfl
      · exact absurd ⟨hg, h⟩ hga
    rw [mainBody_complete hs hb (transform_of_not_e env c he)]
    simp [hg, ha]
  · intro he ha
    have hg : o.g = false := by
      cases h : o.g
      · rfl
      · exact absurd ⟨h, ha⟩ hga
    rw [mainBody_complete hs hb (transform_of_not_e env c he)]
    simp [hg, ha]
  · intro he hg ha
    rw [mainBody_complete hs hb (transform_of_not_e env c he)]
    simp [hg, ha]
  · intro hn hg he
    have ha : o.a = false := by
      cases h : o.a
      · rfl
      · exact absurd ⟨hg, h⟩ hga
    rw [mainBody_complete hs hb (transform_of_not_e env c he)]
    simp [hn, hg, ha, writes_append, h0, h1, finish, writes]

/-- C3 amended, on a sample run: -n and -g with the style "grey" over the
categories 0..100. -/
theorem transform_order_witness :
    writes (main (some { mapOnly with colr := some "grey", n := true, g := true })
        (demoEnv 0 0 0 100)).trace =
      [Tbl.log (Tbl.inverted (Tbl.ramp "grey" 0 100)) 100] :=
  (transform_order { mapOnly with colr := some "grey", n := true, g := true }
    (demoEnv 0 0 0 100) _ [Event.G_find_color_rule "grey", Event.Rast_make_colors "grey" 0 100]
    _ (Tbl.ramp "grey" 0 100) rfl
    (by simp [build, mapOnly, demoEnv, cellCast])).2.2.2.2.2 rfl rfl rfl

/-! ## C4 -/

/-- C4: on a run that gets past the domain scan with the style "random", the
domain is the one the scan returned; when it is floating point (is_fp is not
0) the run ends there with the fatal error on "random", neither
Rast_make_random_colors nor Vect_write_colors having been called; when it is
integral (is_fp = 0) Rast_make_random_colors is the next call, with the
scanned minimum and maximum converted to CELL, which are the scanned values
themselves when these are integers. -/
theorem random_rejected_on_fp (o : Opts) (env : Env C) (t0 : List (Event C)) (x : Ctx C)
    (hs : setup o env = (t0, Step.cont x)) (hstyle : o.colr = some "random") :
    (o.attrcol = none →
      x.is_fp = 0 ∧ x.fmin = (env.scan_cats x.layer).1 ∧ x.fmax = (env.scan_cats x.layer).2) ∧
    (∀ col, o.attrcol = some col →
      x.is_fp = (env.scan_attr x.layer col).1 ∧ x.fmin = (env.scan_attr x.layer col).2.1 ∧
        x.fmax = (env.scan_attr x.layer col).2.2) ∧
    (x.is_fp ≠ 0 →
      main (some o) env = { trace := t0, outcome := Outcome.fatal Fatal.random_fp } ∧
      (∀ lo hi, Event.Rast_make_random_colors lo hi ∉ t0) ∧ writes t0 = []) ∧
    (x.is_fp = 0 →
      (∃ rest, (main (some o) env).trace =
        t0 ++ Event.Rast_make_random_colors (cellCast x.fmin) (cellCast x.fmax) :: rest) ∧
      ∀ a b : Int, x.fmin = a → x.fmax = b → cellCast x.fmin = a ∧ cellCast x.fmax = b) := by
  obtain ⟨k, _, _, hk, hf⟩ := setup_cont hs
  have h0 := setup_writes o env
  rw [hs] at h0
  dsimp only at h0
  have hrules : o.rules = none := by
    have h := hk.at_most_one
    rw [hstyle] at h
    cases hr : o.rules with
    | none => rfl
    | some r => rw [hr] at h; simp at h
  have hstdin : x.is_from_stdin = false := by
    rw [hf.stdin_eq, hk.stdin_eq, hrules]; rfl
  simp only [main]
  refine ⟨hf.cats, hf.attr, ?_, ?_⟩
  · intro hfp
    have hb : build o env x = ([], Step.halt (Outcome.fatal Fatal.random_fp)) := by
      unfold build
      simp [hstdin, hstyle, hfp]
    refine ⟨by simpa using mainBody_build_halt hs hb, ?_, h0⟩
    intro lo hi
    rw [hf.trace_eq]
    cases o.attrcol <;> simp
  · intro hfp
    have hb : build o env x =
        ([Event.Rast_make_random_colors (cellCast x.fmin) (cellCast x.fmax)],
          Step.cont (env.Rast_make_random_colors (cellCast x.fmin) (cellCast x.fmax))) := by
      unfold build
      simp [hstdin, hstyle, hfp]
    constructor
    · rcases ht : transform o env
          (env.Rast_make_random_colors (cellCast x.fmin) (cellCast x.fmax)) with ⟨t2, out | c2⟩
      · rw [mainBody_transform_halt hs hb ht]
        exact ⟨t2, by simp⟩
      · rw [mainBody_complete hs hb ht]
        exact ⟨t2 ++ finish o x c2, by simp⟩
    · intro a b ha hb2
      rw [ha, hb2]
      exact ⟨cellCast_intCast a, cellCast_intCast b⟩

/-- C4, on a sample run: "random" on a floating point attribute column. -/
theorem random_rejected_on_fp_witness :
    main (some { mapOnly with colr := some "random", attrcol := some "elev" })
        (demoEnv 0 1 0 100) =
      { trace :=
          [Event.Vect_open_old2 "roads" "" (some "1"), Event.G_suppress_warnings true,
            Event.Vect_read_colors "roads" "user1", Event.G_suppress_warnings false,
            Event.Vect_get_field_number (some "1"), Event.scan_attr 1 "elev"],
        outcome := Outcome.fatal Fatal.random_fp } :=
  ((random_rejected_on_fp { mapOnly with colr := some "random", attrcol := some "elev" }
    (demoEnv 0 1 0 100) _ _ rfl rfl).2.2.1 (by decide)).1

/-! ## C6 -/

/-- C6 as stated fails: with -g on a domain whose minimum is -5 the run does
not fail; Rast_log_colors is called and its result is written. -/
theorem log_scale_negative_domain_counterexample :
    (demoEnv 0 0 (-5) 100).scan_cats 1 = (-5, 100) ∧
    main (some { mapOnly with rules := some "my.rules", g := true }) (demoEnv 0 0 (-5) 100) =
      { trace :=
          [Event.Vect_open_old2 "roads" "" (some "1"), Event.G_suppress_warnings true,
            Event.Vect_read_colors "roads" "user1", Event.G_suppress_warnings false,
            Event.Vect_get_field_number (some "1"), Event.scan_cats 1,
            Event.Rast_load_fp_colors "my.rules" (-5) 100,
            Event.Rast_log_colors (Tbl.loaded "my.rules" (-5) 100) 100,
            Event.Vect_write_colors "roads" "user1"
              (Tbl.log (Tbl.loaded "my.rules" (-5) 100) 100),
            Event.G_message_set "roads" "user1" (some "my.rules")],
        outcome := Outcome.exit_success } := by
  constructor
  · rfl
  · simp [main, mainBody, setup, checkOptions, openAndScan, donorName, build, transform,
      finish, mapOnly, demoEnv]

/-- C6, amended: main makes no check on the sign of the domain.  On a run
that reaches the transform stage without -e, with -g Rast_log_colors is
called on the (possibly inverted) built table and its result is written, and
with -a the same holds of Rast_abs_log_colors; in both cases the run ends with
success, whatever the scanned minimum. -/
theorem log_scale_unchecked (o : Opts) (env : Env C) (t0 t1 : List (Event C)) (x : Ctx C)
    (c : C) (hs : setup o env = (t0, Step.cont x)) (hb : build o env x = (t1, Step.cont c))
    (he : o.e = false) :
    (o.g = true →
      (main (some o) env).outcome = Outcome.exit_success ∧
      Event.Rast_log_colors (if o.n then env.Rast_invert_colors c else c) 100 ∈
        (main (some o) env).trace ∧
      writes (main (some o) env).trace =
        [env.Rast_log_colors (if o.n then env.Rast_invert_colors c else c) 100]) ∧
    (o.a = true →
      (main (some o) env).outcome = Outcome.exit_success ∧
      Event.Rast_abs_log_colors (if o.n then env.Rast_invert_colors c else c) 100 ∈
        (main (some o) env).trace ∧
      writes (main (some o) env).trace =
        [env.Rast_abs_log_colors (if o.n then env.Rast_invert_colors c else c) 100]) := by
  obtain ⟨k, _, _, hk, hf⟩ := setup_cont hs
  have hga := hk.not_g_and_a
  have h0 := setup_writes o env
  have h1 := build_writes o env x
  rw [hs] at h0; rw [hb] at h1
  dsimp only at h0 h1
  simp only [main]
  rw [mainBody_complete hs hb (transform_of_not_e env c he)]
  constructor
  · intro hg
    have ha : o.a = false := by
      cases h : o.a
      · rfl
      · exact absurd ⟨hg, h⟩ hga
    refine ⟨rfl, by simp [hg, ha], ?_⟩
    cases hn : o.n <;> simp [hn, hg, ha, writes_append, h0, h1, finish, writes]
  · intro ha
    have hg : o.g = false := by
      cases h : o.g
      · rfl
      · exact absurd ⟨h, ha⟩ hga
    refine ⟨rfl, by simp [hg, ha], ?_⟩
    cases hn : o.n <;> simp [hn, hg, ha, writes_append, h0, h1, finish, writes]

/-- C6 amended, on a sample run: -a with a rules file on a domain whose
minimum is -5. -/
theorem log_scale_unchecked_witness :
    (main (some { mapOnly with rules := some "my.rules", a := true })
        (demoEnv 0 0 (-5) 100)).outcome = Outcome.exit_success ∧
    writes (main (some { mapOnly with rules := some "my.rules", a := true })
        (demoEnv 0 0 (-5) 100)).trace =
      [Tbl.abs_log (Tbl.loaded "my.rules" (-5) 100) 100] :=
  have h := (log_scale_unchecked { mapOnly with rules := some "my.rules", a := true }
    (demoEnv 0 0 (-5) 100) _ [Event.Rast_load_fp_colors "my.rules" (-5) 100] _
    (Tbl.loaded "my.rules" (-5) 100) rfl
    (by simp [build, setup, checkOptions, openAndScan, donorName, mapOnly, demoEnv]) rfl).2 rfl
  ⟨h.1, h.2.2⟩

/-! ## C7 -/

/-- On a run that gets past the domain scan with a known style other than
"random", "grey.eq" and "grey.log", the range handed to the generator is the
scanned one converted to CELL, on a floating point domain as well. -/
theorem build_named (o : Opts) (env : Env C) (x : Ctx C) (style : String)
    (hstdin : x.is_from_stdin = false) (hstyle : o.colr = some style)
    (h1 : style ≠ "random") (h2 : style ≠ "grey.eq") (h3 : style ≠ "grey.log")
    (hfind : env.G_find_color_rule style ≠ 0) :
    build o env x =
      if x.is_fp ≠ 0 then
        ([Event.G_find_color_rule style,
          Event.Rast_make_fp_colors style (cellCast x.fmin : DCELL) (cellCast x.fmax : DCELL)],
          Step.cont
            (env.Rast_make_fp_colors style (cellCast x.fmin : DCELL) (cellCast x.fmax : DCELL)))
      else
        ([Event.G_find_color_rule style,
          Event.Rast_make_colors style (cellCast x.fmin) (cellCast x.fmax)],
          Step.cont (env.Rast_make_colors style (cellCast x.fmin) (cellCast x.fmax))) := by
  unfold build
  simp [hstdin, hstyle, h1, h2, h3, hfind]

/-- C7 fails on floating point domains: with the scanned domain (1/2, 3/2) the
style "grey" is generated over the range (0, 1), whose upper end is below the
scanned maximum. -/
theorem fp_ramp_range_truncated :
    (demoEnv 0 1 (1 / 2) (3 / 2)).scan_attr 1 "elev" = (1, 1 / 2, 3 / 2) ∧
    main (some { mapOnly with colr := some "grey", attrcol := some "elev" })
        (demoEnv 0 1 (1 / 2) (3 / 2)) =
      { trace :=
          [Event.Vect_open_old2 "roads" "" (some "1"), Event.G_suppress_warnings true,
            Event.Vect_read_colors "roads" "user1", Event.G_suppress_warnings false,
            Event.Vect_get_field_number (some "1"), Event.scan_attr 1 "elev",
            Event.G_find_color_rule "grey", Event.Rast_make_fp_colors "grey" 0 1,
            Event.Vect_write_colors "roads" "user1" (Tbl.fp_ramp "grey" 0 1),
            Event.G_message_set "roads" "user1" (some "grey")],
        outcome := Outcome.exit_success } ∧
    (1 : DCELL) < 3 / 2 := by
  have hlo : cellCast (1 / 2) = 0 := by
    unfold cellCast
    rw [if_pos (by norm_num)]
    exact Int.floor_eq_iff.2 ⟨by norm_num, by norm_num⟩
  have hhi : cellCast (3 / 2) = 1 := by
    unfold cellCast
    rw [if_pos (by norm_num)]
    exact Int.floor_eq_iff.2 ⟨by norm_num, by norm_num⟩
  refine ⟨rfl, ?_, by norm_num⟩
  simp only [main, mainBody, setup, checkOptions, openAndScan, donorName, build, transform,
    finish, mapOnly, demoEnv]
  simp only [one_div] at hlo
  simp [hlo, hhi]

/-! ## C8 -/

/-- With the rules option "-" nothing is built: the table that goes on to the
transform stage is the one `Vect_read_colors` left in `colors` at line 192. -/
theorem build_of_stdin (o : Opts) (env : Env C) (t0 : List (Event C)) (x : Ctx C)
    (hs : setup o env = (t0, Step.cont x)) (hrules : o.rules = some "-") :
    build o env x = ([], Step.cont (env.Vect_read_colors x.name x.mapset).2) := by
  obtain ⟨k, _, _, hk, hf⟩ := setup_cont hs
  have hstdin : x.is_from_stdin = true := by
    rw [hf.stdin_eq, hk.stdin_eq, hrules]; rfl
  unfold build
  simp [hstdin, hf.colors_eq]

/-- C8 fails: with the rules option "-" on a map that already has a table,
the run reads no rules (no call is made between the domain scan and the
write) and writes back the table the map had before the run. -/
theorem stdin_rules_not_read :
    (demoEnv 1 0 0 100).Vect_read_colors "roads" "user1" = (1, Tbl.previous) ∧
    main (some { mapOnly with rules := some "-" }) (demoEnv 1 0 0 100) =
      { trace :=
          [Event.Vect_open_old2 "roads" "" (some "1"), Event.G_suppress_warnings true,
            Event.Vect_read_colors "roads" "user1", Event.G_suppress_warnings false,
            Event.Vect_get_field_number (some "1"), Event.scan_cats 1,
            Event.Vect_write_colors "roads" "user1" Tbl.previous,
            Event.G_message_set "roads" "user1" (some "rules")],
        outcome := Outcome.exit_success } := by
  constructor
  · rfl
  · simp [main, mainBody, setup, checkOptions, openAndScan, donorName, build, transform,
      finish, mapOnly, demoEnv]

end VColors
